import Mathlib

/-!
Verification of the BCM (broadcast manager) async socket module of
socketcan-rs (`src/bcm/async.rs`) against its natural-language
specification.

The Rust code is shallowly embedded:
* `#[repr(C)]` struct layouts are modelled by an explicit repr(C) layout
  calculator (`structSize`) parameterised by the pointer width `w`
  (32 or 64), so that architecture-conditional padding is computable;
* machine integers are `Nat` (bit patterns) or `Int` (signed syscall
  return values) with explicit bounds where overflow matters;
* syscall-using functions become pure functions of an "environment"
  record holding the values the kernel would report, and return a trace
  record (the system calls issued and the `Except` result), mirroring
  the Rust control flow line by line.
-/

namespace SocketCan

/-! ## repr(C) layout calculator

A field is a pair `(size, align)`.  repr(C) places fields in order,
aligning each field's offset up to its alignment, and rounds the final
size up to the struct's alignment (the max of the field alignments). -/

/-- Round `off` up to the next multiple of `a` (for `a > 0`). -/
def alignUp (off a : Nat) : Nat := ((off + a - 1) / a) * a

/-- Fold over a repr(C) field list, producing (end offset, struct align). -/
def layoutFold (fields : List (Nat × Nat)) : Nat × Nat :=
  fields.foldl (fun acc f => (alignUp acc.1 f.2 + f.1, max acc.2 f.2)) (0, 1)

/-- `size_of` for a repr(C) struct given its field (size, align) list. -/
def structSize (fields : List (Nat × Nat)) : Nat :=
  alignUp (layoutFold fields).1 (layoutFold fields).2

/-- `align_of` for a repr(C) struct given its field (size, align) list. -/
def structAlign (fields : List (Nat × Nat)) : Nat :=
  (layoutFold fields).2

/-- A `u32` field: 4 bytes, 4-aligned, on every supported target. -/
def u32Field : Nat × Nat := (4, 4)

/-- A `libc::timeval` field (`tv_sec`/`tv_usec`, each one native long)
for pointer width `w`: two `w/8`-byte words. -/
def timevalField (w : Nat) : Nat × Nat := (2 * (w / 8), w / 8)

/-- A `usize` field for pointer width `w`. -/
def usizeField (w : Nat) : Nat × Nat := (w / 8, w / 8)

/-- A `CanFrame` array field of `MAX_NFRAMES = 256` elements.  The frame
record is the opaque fixed-size collaborator type: 16 bytes, 4-aligned
(a `u32` identifier, four `u8`s, eight payload bytes). -/
def canFrameArrayField : Nat × Nat := (16 * 256, 4)

/-! ## Protocol constants (`src/bcm/async.rs`) -/

def MAX_NFRAMES : Nat := 256

/-- create (cyclic) transmission task -/
def TX_SETUP : Nat := 1
/-- remove (cyclic) transmission task -/
def TX_DELETE : Nat := 2
/-- create RX content filter subscription -/
def RX_SETUP : Nat := 5
/-- remove RX content filter subscription -/
def RX_DELETE : Nat := 6
/-- set the value of ival1, ival2 and count -/
def SETTIMER : Nat := 1
/-- start the timer with the actual value of ival1, ival2 and count -/
def STARTTIMER : Nat := 2
/-- Filter by can_id alone, no frames required (nframes=0) -/
def RX_FILTER_ID : Nat := 32

/-- Modelled from the spec: `EFF_FLAG`, the extended-identifier bit, is
imported from the crate root, which is not part of the analysed sources.
The spec describes it as "a reserved high bit in the identifier field
marking a wider identifier namespace": the high bit of the 32-bit
identifier, 0x80000000. -/
def EFF_FLAG : Nat := 2147483648

/-! ## Field lists of the two header variants

`bcmMsgHeadFields w withPad` lists the repr(C) fields of `BcmMsgHead`
for pointer width `w`.  `withPad = true` reproduces the source struct,
whose `_pad : u32` field exists only under
`cfg(target_pointer_width = "32")`; `withPad = false` is the same
variant with the padding rule removed (for the size-difference
property). -/

def bcmMsgHeadFields (w : Nat) (withPad : Bool) : List (Nat × Nat) :=
  [u32Field, u32Field, u32Field, timevalField w, timevalField w,
   u32Field, u32Field] ++
  (if withPad ∧ w = 32 then [u32Field] else []) ++
  [canFrameArrayField]

/-- repr(C) fields of `BcmMsgHeadFrameLess` for pointer width `w`: the
same header fields, a `_pad : usize` under
`cfg(target_pointer_width = "32")`, and no trailing frame array. -/
def bcmMsgHeadFrameLessFields (w : Nat) (withPad : Bool) : List (Nat × Nat) :=
  [u32Field, u32Field, u32Field, timevalField w, timevalField w,
   u32Field, u32Field] ++
  (if withPad ∧ w = 32 then [usizeField w] else [])

/-- `size_of::<BcmMsgHead>()` for pointer width `w`. -/
def bcmMsgHeadSize (w : Nat) (withPad : Bool) : Nat :=
  structSize (bcmMsgHeadFields w withPad)

/-- `size_of::<BcmMsgHeadFrameLess>()` for pointer width `w`. -/
def bcmMsgHeadFrameLessSize (w : Nat) (withPad : Bool) : Nat :=
  structSize (bcmMsgHeadFrameLessFields w withPad)

/-- repr(C) fields of `TxMsg`: a `BcmMsgHeadFrameLess` followed by the
`MAX_NFRAMES` frame array. -/
def txMsgFields (w : Nat) : List (Nat × Nat) :=
  [(bcmMsgHeadFrameLessSize w true, structAlign (bcmMsgHeadFrameLessFields w true)),
   canFrameArrayField]

/-- `size_of::<TxMsg>()` for pointer width `w`. -/
def txMsgSize (w : Nat) : Nat := structSize (txMsgFields w)

/-! ## Data structures -/

/-- Modelled from the spec: the `CanFrame` collaborator type is defined
outside the analysed sources.  The spec treats it as "an opaque
fixed-size record with an identifier and payload bytes" (identifier,
length, payload bytes; the extended-id/remote-request flags live in the
identifier's high bits).  Its fixed size is 16 bytes: a 32-bit
identifier, a length byte, three reserved bytes (always zero), and
eight payload bytes. -/
structure CanFrame where
  can_id : Nat
  data_len : Nat
  data : List Nat
deriving DecidableEq

/-- Well-formedness of a frame as a bit pattern: 32-bit identifier, one
length byte, exactly eight payload bytes. -/
def CanFrame.wf (f : CanFrame) : Prop :=
  f.can_id < 4294967296 ∧ f.data_len < 256 ∧ f.data.length = 8 ∧
  ∀ b ∈ f.data, b < 256

instance (f : CanFrame) : Decidable f.wf := by
  unfold CanFrame.wf; infer_instance

/-- Modelled from the spec: `CanFrame::new(0x0, &[], false, false)` —
the all-zero frame used to fill the fixed-capacity frame arrays
(zero identifier, empty payload copied into a zeroed 8-byte buffer,
no flag bits). -/
def zeroFrame : CanFrame := ⟨0, 0, List.replicate 8 0⟩

/-- `libc::timeval` as a pair of native-word bit patterns. -/
structure Timeval where
  tv_sec : Nat
  tv_usec : Nat
deriving DecidableEq

/-- `std::time::Duration`: seconds plus sub-second nanoseconds. -/
structure Duration where
  secs : Nat
  nanos : Nat
deriving DecidableEq

/-- Modelled from the spec: `c_timeval_new` lives in the crate root,
outside the analysed sources.  The spec says intervals are "encoded as
seconds+microseconds", so the duration's seconds become `tv_sec` and
its sub-second nanoseconds, divided down to microseconds, become
`tv_usec`. -/
def c_timeval_new (d : Duration) : Timeval :=
  ⟨d.secs, d.nanos / 1000⟩

/-- `BcmMsgHead`: head of messages to and from the broadcast manager,
with its trailing fixed-capacity frame buffer (`_frames` has length
`MAX_NFRAMES = 256` when well-formed).  The architecture-conditional
`_pad` field carries no data and is represented only in the layout and
byte codec, not as a field. -/
structure BcmMsgHead where
  _opcode : Nat
  _flags : Nat
  _count : Nat
  _ival1 : Timeval
  _ival2 : Timeval
  _can_id : Nat
  _nframes : Nat
  _frames : List CanFrame
deriving DecidableEq

/-- `BcmMsgHeadFrameLess`: the same header without the frame buffer. -/
structure BcmMsgHeadFrameLess where
  _opcode : Nat
  _flags : Nat
  _count : Nat
  _ival1 : Timeval
  _ival2 : Timeval
  _can_id : Nat
  _nframes : Nat
deriving DecidableEq

/-- `TxMsg`: a frame-less head followed by the full frame buffer. -/
structure TxMsg where
  _msg_head : BcmMsgHeadFrameLess
  _frames : List CanFrame
deriving DecidableEq

/-- `BcmMsgHead::can_id()`: returns the identifier field verbatim. -/
def BcmMsgHead.can_id (m : BcmMsgHead) : Nat := m._can_id

/-- `BcmMsgHead::frames()`: a view of the first `_nframes` records of
the trailing buffer (`slice::from_raw_parts(_frames.as_ptr(), _nframes)`). -/
def BcmMsgHead.frames (m : BcmMsgHead) : List CanFrame :=
  m._frames.take m._nframes

/-- Well-formedness of a message head for pointer width `w`: every
field is in range for its machine type and the fixed frame buffer has
exactly `MAX_NFRAMES` well-formed entries. -/
def BcmMsgHead.wf (w : Nat) (m : BcmMsgHead) : Prop :=
  m._opcode < 4294967296 ∧ m._flags < 4294967296 ∧ m._count < 4294967296 ∧
  m._ival1.tv_sec < 2 ^ w ∧ m._ival1.tv_usec < 2 ^ w ∧
  m._ival2.tv_sec < 2 ^ w ∧ m._ival2.tv_usec < 2 ^ w ∧
  m._can_id < 4294967296 ∧ m._nframes < 4294967296 ∧
  m._frames.length = 256 ∧ ∀ f ∈ m._frames, f.wf

instance (w : Nat) (m : BcmMsgHead) : Decidable (m.wf w) := by
  unfold BcmMsgHead.wf; infer_instance

/-! ## Byte codec

The Rust code sends and receives these structs by reinterpreting them
as raw byte buffers.  We model that `repr(C)` memory image explicitly:
little-endian words, with exactly the padding bytes the layout
calculator predicts (four alignment bytes before `_ival1` on 64-bit
targets, the four-byte `_pad` field after `_nframes` on 32-bit
targets). -/

/-- `k`-byte little-endian image of the bit pattern `x`. -/
def wordLE : Nat → Nat → List Nat
  | 0, _ => []
  | k + 1, x => x % 256 :: wordLE k (x / 256)

/-- Read a `k`-byte little-endian word, returning it and the rest. -/
def readWordLE : Nat → List Nat → Option (Nat × List Nat)
  | 0, bs => some (0, bs)
  | _ + 1, [] => none
  | k + 1, b :: bs =>
    match readWordLE k bs with
    | some (v, rest) => some (b + 256 * v, rest)
    | none => none

/-- Read `k` raw bytes, returning them and the rest. -/
def readBytes : Nat → List Nat → Option (List Nat × List Nat)
  | 0, bs => some ([], bs)
  | _ + 1, [] => none
  | k + 1, b :: bs =>
    match readBytes k bs with
    | some (d, rest) => some (b :: d, rest)
    | none => none

/-- 16-byte image of a frame record: identifier word, length byte,
three reserved zero bytes, eight payload bytes. -/
def encodeFrame (f : CanFrame) : List Nat :=
  wordLE 4 f.can_id ++ f.data_len :: 0 :: 0 :: 0 :: f.data

/-- Decode one 16-byte frame record. -/
def decodeFrame (bs : List Nat) : Option (CanFrame × List Nat) :=
  match readWordLE 4 bs with
  | none => none
  | some (id, bs1) =>
    match bs1 with
    | dl :: _ :: _ :: _ :: rest =>
      match readBytes 8 rest with
      | none => none
      | some (d, rest2) => some (⟨id, dl, d⟩, rest2)
    | _ => none

/-- Concatenated images of a list of frame records. -/
def encodeFrames : List CanFrame → List Nat
  | [] => []
  | f :: fs => encodeFrame f ++ encodeFrames fs

/-- Decode `k` consecutive frame records. -/
def decodeFrames : Nat → List Nat → Option (List CanFrame × List Nat)
  | 0, bs => some ([], bs)
  | k + 1, bs =>
    match decodeFrame bs with
    | none => none
    | some (f, rest) =>
      match decodeFrames k rest with
      | none => none
      | some (fs, rest2) => some (f :: fs, rest2)

/-- The `repr(C)` memory image of a `BcmMsgHead` for pointer width `w`
(32 or 64): the header fields at their computed offsets — including
the alignment padding before `_ival1` on 64-bit targets and the `_pad`
field after `_nframes` on 32-bit targets — followed by the images of
the 256 buffered frames. -/
def encodeBcmMsgHead (w : Nat) (m : BcmMsgHead) : List Nat :=
  wordLE 4 m._opcode ++ wordLE 4 m._flags ++ wordLE 4 m._count ++
  (if w = 64 then [0, 0, 0, 0] else []) ++
  wordLE (w / 8) m._ival1.tv_sec ++ wordLE (w / 8) m._ival1.tv_usec ++
  wordLE (w / 8) m._ival2.tv_sec ++ wordLE (w / 8) m._ival2.tv_usec ++
  wordLE 4 m._can_id ++ wordLE 4 m._nframes ++
  (if w = 32 then [0, 0, 0, 0] else []) ++
  encodeFrames m._frames

/-- Decode a `BcmMsgHead` memory image for pointer width `w` (32 or
64), skipping the same padding bytes the encoder emits. -/
def decodeBcmMsgHead (w : Nat) (bs : List Nat) :
    Option (BcmMsgHead × List Nat) := do
  let (op, bs) ← readWordLE 4 bs
  let (fl, bs) ← readWordLE 4 bs
  let (ct, bs) ← readWordLE 4 bs
  let (_, bs) ← readBytes (if w = 64 then 4 else 0) bs
  let (s1, bs) ← readWordLE (w / 8) bs
  let (u1, bs) ← readWordLE (w / 8) bs
  let (s2, bs) ← readWordLE (w / 8) bs
  let (u2, bs) ← readWordLE (w / 8) bs
  let (id, bs) ← readWordLE 4 bs
  let (nf, bs) ← readWordLE 4 bs
  let (_, bs) ← readBytes (if w = 32 then 4 else 0) bs
  let (fs, bs) ← decodeFrames 256 bs
  some (⟨op, fl, ct, ⟨s1, u1⟩, ⟨s2, u2⟩, id, nf, fs⟩, bs)

/-! ## Errors

`std::io::Error` values observable in this module: either
`io::Error::last_os_error()` (an errno) or `io::Error::new(kind, msg)`
(a kind plus a payload).  On Linux, errno 11 (`EAGAIN` =
`EWOULDBLOCK`) is the one that maps to `ErrorKind::WouldBlock`. -/

inductive ErrorKind where
  | wouldBlock
  | writeZero
  | otherKind
deriving DecidableEq

inductive IoError where
  | fromRawOsError (errno : Nat)
  | custom (kind : ErrorKind) (msg : String)
deriving DecidableEq

/-- `io::Error::kind()`. -/
def IoError.kind : IoError → ErrorKind
  | .fromRawOsError e => if e = 11 then .wouldBlock else .otherKind
  | .custom k _ => k

/-- `CanSocketOpenError` (crate root): the variant used here wraps an
`io::Error`, i.e. the last OS error code. -/
inductive CanSocketOpenError where
  | lookupError (errno : Nat)
  | ioError (errno : Nat)
deriving DecidableEq

/-- `CanBCMSocket`: owns the raw file descriptor. -/
structure CanBCMSocket where
  fd : Int
deriving DecidableEq

/-! ## `open_if_nb`

The three system calls are modelled by an environment giving each
call's return value and the errno that `io::Error::last_os_error()`
would observe right after it.  The trace records which calls were
issued, in order, with their arguments. -/

/-- Modelled from the spec: the socket-domain/type/protocol constants
(`PF_CAN`, `AF_CAN`, `SOCK_DGRAM`, `CAN_BCM`) come from the crate root,
outside the analysed sources; the spec calls them "a BCM-specific
protocol family/protocol pair" for "a datagram-style socket".  The
numeric values are the Linux ones and no claim depends on them. -/
def PF_CAN : Nat := 29

/-- Modelled from the spec: address family, equal to the protocol
family. See `PF_CAN`. -/
def AF_CAN : Nat := 29

/-- Modelled from the spec: datagram socket type. See `PF_CAN`. -/
def SOCK_DGRAM : Nat := 2

/-- Modelled from the spec: BCM protocol number. See `PF_CAN`. -/
def CAN_BCM : Nat := 2

/-- `libc::F_SETFL`. -/
def F_SETFL : Nat := 4

/-- `libc::O_NONBLOCK`. -/
def O_NONBLOCK : Nat := 2048

/-- `CanAddr` (crate root): the `sockaddr_can`-shaped address passed to
`connect`, carrying the interface index and the two (reserved, zero)
identifier fields. -/
structure CanAddr where
  _af_can : Nat
  if_index : Int
  rx_id : Nat
  tx_id : Nat
deriving DecidableEq

/-- One issued system call, with the arguments the code passes. -/
inductive SysStep where
  | socketCall (domain ty proto : Nat)
  | fcntlCall (cmd flag : Nat)
  | connectCall (addr : CanAddr)
deriving DecidableEq

/-- Kernel-side behaviour of the three calls `open_if_nb` makes. -/
structure OpenEnv where
  socket_rv : Int
  errnoSocket : Nat
  fcntl_rv : Int
  errnoFcntl : Nat
  connect_rv : Int
  errnoConnect : Nat
deriving DecidableEq

instance {ε α : Type} [DecidableEq ε] [DecidableEq α] :
    DecidableEq (Except ε α) := fun
  | .error e, .error f =>
    if h : e = f then isTrue (by rw [h])
    else isFalse (fun c => h (Except.error.inj c))
  | .error _, .ok _ => isFalse Except.noConfusion
  | .ok _, .error _ => isFalse Except.noConfusion
  | .ok a, .ok b =>
    if h : a = b then isTrue (by rw [h])
    else isFalse (fun c => h (Except.ok.inj c))

/-- Result of an `open_if_nb` run: the calls issued and the value
returned. -/
structure OpenTrace where
  calls : List SysStep
  result : Except CanSocketOpenError CanBCMSocket
deriving DecidableEq

/-- `CanBCMSocket::open_if_nb`: socket, then fcntl(F_SETFL, O_NONBLOCK),
then connect with `CanAddr { AF_CAN, if_index, rx_id: 0, tx_id: 0 }`;
each failure returns `CanSocketOpenError::from(io::Error::last_os_error())`
at once. -/
def open_if_nb (if_index : Nat) (env : OpenEnv) : OpenTrace :=
  let sCall := SysStep.socketCall PF_CAN SOCK_DGRAM CAN_BCM
  if env.socket_rv = -1 then
    ⟨[sCall], .error (.ioError env.errnoSocket)⟩
  else
    let fCall := SysStep.fcntlCall F_SETFL O_NONBLOCK
    if env.fcntl_rv = -1 then
      ⟨[sCall, fCall], .error (.ioError env.errnoFcntl)⟩
    else
      let addr : CanAddr := ⟨AF_CAN, (if_index : Int), 0, 0⟩
      let cCall := SysStep.connectCall addr
      if env.connect_rv ≠ 0 then
        ⟨[sCall, fCall, cCall], .error (.ioError env.errnoConnect)⟩
      else
        ⟨[sCall, fCall, cCall], .ok ⟨env.socket_rv⟩⟩

/-! ## `close` and `Drop` -/

/-- `CanBCMSocket::close`: calls `libc::close(fd)` (return value
`close_rv`, last OS error `errno`) and — as written in the source —
returns the error when the return value is NOT `-1`, and `Ok(())` when
it IS `-1`. -/
def CanBCMSocket.close (close_rv : Int) (errno : Nat) :
    Except IoError Unit :=
  if close_rv ≠ -1 then .error (.fromRawOsError errno)
  else .ok ()

/-- `Drop for CanBCMSocket`: `self.close().ok();` — the close result is
discarded, so destruction never propagates an error. -/
def CanBCMSocket.dropSocket (close_rv : Int) (errno : Nat) : Unit :=
  match CanBCMSocket.close close_rv errno with
  | _ => ()

/-! ## `filter_id` -/

/-- The `TxMsg` built by `filter_id`: a frame-less head with opcode
`RX_SETUP`, flags `SETTIMER | RX_FILTER_ID`, count 0, the two converted
intervals, `can_id | EFF_FLAG`, `nframes` 0, followed by the
`MAX_NFRAMES` zero frames. -/
def filter_id_msg (can_id : Nat) (ival1 ival2 : Duration) : TxMsg :=
  { _msg_head :=
      { _opcode := RX_SETUP
        _flags := SETTIMER ||| RX_FILTER_ID
        _count := 0
        _ival1 := c_timeval_new ival1
        _ival2 := c_timeval_new ival2
        _can_id := can_id ||| EFF_FLAG
        _nframes := 0 }
    _frames := List.replicate 256 zeroFrame }

/-- The error check of `filter_id` after
`write(fd, &tx_msg, size_of::<TxMsg>())` reported `write_rv` bytes:
`Err(Error::new(WriteZero, last_os_error()))` when `write_rv < 0`,
`Ok(())` otherwise. -/
def filter_id_result (write_rv : Int) (errno : Nat) :
    Except IoError Unit :=
  if write_rv < 0 then
    .error (.custom .writeZero ("os error " ++ toString errno))
  else .ok ()

/-! ## `filter_delete` -/

/-- The `BcmMsgHead` built by `filter_delete`: opcode `RX_DELETE`, all
timer/count fields zero, the given identifier unmodified, `nframes` 0,
and the unused zero-filled frame buffer. -/
def filter_delete_msg (can_id : Nat) : BcmMsgHead :=
  { _opcode := RX_DELETE
    _flags := 0
    _count := 0
    _ival1 := c_timeval_new ⟨0, 0⟩
    _ival2 := c_timeval_new ⟨0, 0⟩
    _can_id := can_id
    _nframes := 0
    _frames := List.replicate 256 zeroFrame }

/-- Rust's `write_rv as usize` on a `w`-bit target: the bit pattern of
the signed value, i.e. `write_rv mod 2^w`. -/
def usizeOfIsize (w : Nat) (x : Int) : Nat :=
  (x % ((2 : Int) ^ w)).toNat

/-- `size_of::<BcmMsgHead>() - size_of::<[CanFrame; MAX_NFRAMES]>()`,
the byte count `filter_delete` expects the kernel to accept. -/
def expectedDeleteSize (w : Nat) : Nat :=
  bcmMsgHeadSize w true - structSize [canFrameArrayField]

/-- The message of the mismatch error:
`format!("Wrote {} but expected {}", write_rv, expected_size)`. -/
def mismatchMsg (write_rv : Int) (expected : Nat) : String :=
  "Wrote " ++ toString write_rv ++ " but expected " ++ toString expected

/-- The error check of `filter_delete` after
`write(fd, &msg, size_of::<BcmMsgHead>())` reported `write_rv` bytes:
`Err(Error::new(WriteZero, format!(...)))` when `write_rv as usize`
differs from the expected size, `Ok(())` otherwise. -/
def filter_delete_result (w : Nat) (write_rv : Int) :
    Except IoError Unit :=
  if usizeOfIsize w write_rv ≠ expectedDeleteSize w then
    .error (.custom .writeZero (mismatchMsg write_rv (expectedDeleteSize w)))
  else .ok ()

/-! ## `read_msg` -/

/-- The all-zero `BcmMsgHead` that `read_msg` builds as its receive
buffer. -/
def zeroedBcmMsgHead : BcmMsgHead :=
  { _opcode := 0
    _flags := 0
    _count := 0
    _ival1 := c_timeval_new ⟨0, 0⟩
    _ival2 := c_timeval_new ⟨0, 0⟩
    _can_id := 0
    _nframes := 0
    _frames := List.replicate 256 zeroFrame }

/-- Kernel-side behaviour of the one `read` call `read_msg` makes:
the reported byte count, the buffer contents after the call, and the
errno `io::Error::last_os_error()` would observe. -/
structure ReadEnv where
  retval : Int
  filled : BcmMsgHead
  errno : Nat

/-- Result of a `read_msg` run: the byte count requested from `read`,
the buffer it started from, and the value returned. -/
structure ReadTrace where
  requested : Nat
  initialBuf : BcmMsgHead
  result : Except IoError BcmMsgHead
deriving DecidableEq

/-- `CanBCMSocket::read_msg`: zero the buffer, `read(fd, &mut msg,
size_of::<BcmMsgHead>())`, then `Err(last_os_error())` on a negative
count and `Ok(msg)` — every header field trusted as read — otherwise. -/
def read_msg (w : Nat) (env : ReadEnv) : ReadTrace :=
  { requested := bcmMsgHeadSize w true
    initialBuf := zeroedBcmMsgHead
    result :=
      if env.retval < 0 then .error (.fromRawOsError env.errno)
      else .ok env.filled }

/-! ## The stream adapter (`impl Stream for BcmStream`) -/

/-- The observable outcome of one `poll`: `Ok(Async::NotReady)`,
`Ok(Async::Ready(Some(msg)))`, or `Err(e)`. -/
inductive PollOut where
  | notReady
  | ready (msg : BcmMsgHead)
  | errorOut (e : IoError)
deriving DecidableEq

/-- One `poll` run: its outcome, whether `read_msg` was invoked, and
whether readability interest was re-armed (`self.io.need_read()`). -/
structure PollEffect where
  out : PollOut
  didRead : Bool
  rearmed : Bool
deriving DecidableEq

/-- `BcmStream::poll`: if `poll_read()` is `NotReady` return `NotReady`
without touching the socket; otherwise run `read_msg` (whose result the
environment supplies as `rr`) and dispatch on it: success yields the
message, a `WouldBlock` error re-arms read interest and returns
`NotReady`, any other error is returned as the stream's error. -/
def bcmPoll (readable : Bool) (rr : Except IoError BcmMsgHead) :
    PollEffect :=
  if ¬readable then ⟨.notReady, false, false⟩
  else
    match rr with
    | .ok m => ⟨.ready m, true, false⟩
    | .error e =>
      if e.kind = .wouldBlock then ⟨.notReady, true, true⟩
      else ⟨.errorOut e, true, false⟩

/-- Poll a scripted reactor repeatedly: each script entry gives the
readiness answer and the `read_msg` result for one poll; a terminal
error stops the sequence. -/
def runPolls : List (Bool × Except IoError BcmMsgHead) → List PollOut
  | [] => []
  | (r, rr) :: rest =>
    match (bcmPoll r rr).out with
    | .errorOut e => [.errorOut e]
    | o => o :: runPolls rest

/-! ## Helper lemmas: the byte codec round-trips -/

theorem wordLE_length (k x : Nat) : (wordLE k x).length = k := by
  induction k generalizing x with
  | zero => rfl
  | succ k ih => simp [wordLE, ih]

theorem readWordLE_append (k x : Nat) (rest : List Nat)
    (h : x < 256 ^ k) :
    readWordLE k (wordLE k x ++ rest) = some (x, rest) := by
  induction k generalizing x with
  | zero =>
    have : x = 0 := by simpa using h
    simp [this, wordLE, readWordLE]
  | succ k ih =>
    have hdiv : x / 256 < 256 ^ k := by
      rw [Nat.div_lt_iff_lt_mul (by norm_num)]
      calc x < 256 ^ (k + 1) := h
        _ = 256 ^ k * 256 := by ring
    simp [wordLE, readWordLE, ih (x / 256) hdiv, Nat.mod_add_div]

theorem readBytes_append (ds rest : List Nat) :
    readBytes ds.length (ds ++ rest) = some (ds, rest) := by
  induction ds with
  | nil => simp [readBytes]
  | cons b ds ih => simp [readBytes, ih]

theorem decodeFrame_encodeFrame (f : CanFrame) (rest : List Nat)
    (h : f.wf) :
    decodeFrame (encodeFrame f ++ rest) = some (f, rest) := by
  obtain ⟨h1, h2, h3, h4⟩ := h
  have e1 : readWordLE 4
      (wordLE 4 f.can_id ++ (f.data_len :: 0 :: 0 :: 0 :: (f.data ++ rest)))
      = some (f.can_id, f.data_len :: 0 :: 0 :: 0 :: (f.data ++ rest)) :=
    readWordLE_append 4 _ _ (by norm_num; exact h1)
  have e2 : readBytes 8 (f.data ++ rest) = some (f.data, rest) := by
    rw [← h3]; exact readBytes_append _ _
  simp [decodeFrame, encodeFrame, List.append_assoc, e1, e2]

theorem decodeFrames_encodeFrames (fs : List CanFrame) (rest : List Nat)
    (h : ∀ f ∈ fs, f.wf) :
    decodeFrames fs.length (encodeFrames fs ++ rest) = some (fs, rest) := by
  induction fs generalizing rest with
  | nil => simp [encodeFrames, decodeFrames]
  | cons f fs ih =>
    have hf : f.wf := h f (by simp)
    have hfs : ∀ g ∈ fs, g.wf := fun g hg => h g (by simp [hg])
    simp [encodeFrames, decodeFrames, List.append_assoc,
      decodeFrame_encodeFrame f _ hf, ih _ hfs]

theorem encodeFrame_length (f : CanFrame) (h : f.wf) :
    (encodeFrame f).length = 16 := by
  obtain ⟨h1, h2, h3, h4⟩ := h
  simp [encodeFrame, wordLE_length, h3]

theorem encodeFrames_length (fs : List CanFrame)
    (h : ∀ f ∈ fs, f.wf) :
    (encodeFrames fs).length = 16 * fs.length := by
  induction fs with
  | nil => simp [encodeFrames]
  | cons f fs ih =>
    have hf : f.wf := h f (by simp)
    have hfs : ∀ g ∈ fs, g.wf := fun g hg => h g (by simp [hg])
    simp [encodeFrames, encodeFrame_length f hf, ih hfs]
    ring

theorem readBytes_zero (bs : List Nat) : readBytes 0 bs = some ([], bs) :=
  rfl

theorem readBytes_four (a b c d : Nat) (rest : List Nat) :
    readBytes 4 (a :: b :: c :: d :: rest) = some ([a, b, c, d], rest) := by
  simp [readBytes]

set_option maxHeartbeats 2000000 in
theorem decodeBcmMsgHead_encodeBcmMsgHead (w : Nat) (m : BcmMsgHead)
    (hw : w = 32 ∨ w = 64) (hm : m.wf w) :
    decodeBcmMsgHead w (encodeBcmMsgHead w m) = some (m, []) := by
  obtain ⟨h1, h2, h3, h4, h5, h6, h7, h8, h9, h10, h11⟩ := hm
  have hfr : decodeFrames 256 (encodeFrames m._frames)
      = some (m._frames, []) := by
    have := decodeFrames_encodeFrames m._frames [] h11
    rw [h10] at this
    simpa using this
  rcases hw with rfl | rfl
  · simp only [encodeBcmMsgHead, decodeBcmMsgHead, reduceIte,
      Nat.reduceDiv, List.append_assoc, List.cons_append, List.nil_append]
    rw [readWordLE_append 4 m._opcode _ (by simpa using h1)]
    simp only [Option.bind_eq_bind, Option.some_bind]
    rw [readWordLE_append 4 m._flags _ (by simpa using h2)]
    simp only [Option.bind_eq_bind, Option.some_bind]
    rw [readWordLE_append 4 m._count _ (by simpa using h3)]
    simp only [Option.bind_eq_bind, Option.some_bind]
    norm_num
    rw [readBytes_zero]
    simp only [Option.bind_eq_bind, Option.some_bind]
    rw [readWordLE_append 4 m._ival1.tv_sec _ (by simpa using h4)]
    simp only [Option.bind_eq_bind, Option.some_bind]
    rw [readWordLE_append 4 m._ival1.tv_usec _ (by simpa using h5)]
    simp only [Option.bind_eq_bind, Option.some_bind]
    rw [readWordLE_append 4 m._ival2.tv_sec _ (by simpa using h6)]
    simp only [Option.bind_eq_bind, Option.some_bind]
    rw [readWordLE_append 4 m._ival2.tv_usec _ (by simpa using h7)]
    simp only [Option.bind_eq_bind, Option.some_bind]
    rw [readWordLE_append 4 m._can_id _ (by simpa using h8)]
    simp only [Option.bind_eq_bind, Option.some_bind]
    rw [readWordLE_append 4 m._nframes _ (by simpa using h9)]
    simp only [Option.bind_eq_bind, Option.some_bind, reduceIte]
    rw [readBytes_four]
    simp only [Option.bind_eq_bind, Option.some_bind]
    rw [hfr]
    simp only [Option.bind_eq_bind, Option.some_bind]
  · simp only [encodeBcmMsgHead, decodeBcmMsgHead, reduceIte,
      Nat.reduceDiv, List.append_assoc, List.cons_append, List.nil_append]
    rw [readWordLE_append 4 m._opcode _ (by simpa using h1)]
    simp only [Option.bind_eq_bind, Option.some_bind]
    rw [readWordLE_append 4 m._flags _ (by simpa using h2)]
    simp only [Option.bind_eq_bind, Option.some_bind]
    rw [readWordLE_append 4 m._count _ (by simpa using h3)]
    simp only [Option.bind_eq_bind, Option.some_bind, reduceIte,
      List.nil_append]
    rw [readBytes_four]
    simp only [Option.bind_eq_bind, Option.some_bind]
    rw [readWordLE_append 8 m._ival1.tv_sec _ (by simpa using h4)]
    simp only [Option.bind_eq_bind, Option.some_bind]
    rw [readWordLE_append 8 m._ival1.tv_usec _ (by simpa using h5)]
    simp only [Option.bind_eq_bind, Option.some_bind]
    rw [readWordLE_append 8 m._ival2.tv_sec _ (by simpa using h6)]
    simp only [Option.bind_eq_bind, Option.some_bind]
    rw [readWordLE_append 8 m._ival2.tv_usec _ (by simpa using h7)]
    simp only [Option.bind_eq_bind, Option.some_bind]
    rw [readWordLE_append 4 m._can_id _ (by simpa using h8)]
    simp only [Option.bind_eq_bind, Option.some_bind]
    rw [readWordLE_append 4 m._nframes _ (by simpa using h9)]
    simp only [Option.bind_eq_bind, Option.some_bind]
    norm_num
    rw [readBytes_zero]
    simp only [Option.bind_eq_bind, Option.some_bind]
    rw [hfr]
    simp only [Option.bind_eq_bind, Option.some_bind]

/-! ## Claim theorems -/

/-- Claim C1: on 32-bit pointer-width targets both header layouts
(`BcmMsgHead` and `BcmMsgHeadFrameLess`) contain a padding field of
native word size (`w / 8` bytes) immediately after the frame-count
field — also in the frame-less variant, whose trailing frame array has
logical length zero — and on other targets no such field exists;
consequently the size of each padded variant minus the size of the same
variant without the padding rule equals exactly that padding on 32-bit
targets and zero elsewhere. -/
theorem c1_arch_conditional_padding (w : Nat) (hw : w = 32 ∨ w = 64) :
    (bcmMsgHeadSize w true - bcmMsgHeadSize w false
      = if w = 32 then w / 8 else 0) ∧
    (bcmMsgHeadFrameLessSize w true - bcmMsgHeadFrameLessSize w false
      = if w = 32 then w / 8 else 0) ∧
    (w = 32 →
      bcmMsgHeadFields w true
        = (bcmMsgHeadFields w false).take 7 ++ [u32Field]
            ++ (bcmMsgHeadFields w false).drop 7 ∧
      bcmMsgHeadFrameLessFields w true
        = (bcmMsgHeadFrameLessFields w false).take 7 ++ [usizeField w]
            ++ (bcmMsgHeadFrameLessFields w false).drop 7) ∧
    (w ≠ 32 →
      bcmMsgHeadFields w true = bcmMsgHeadFields w false ∧
      bcmMsgHeadFrameLessFields w true = bcmMsgHeadFrameLessFields w false) := by
  rcases hw with rfl | rfl <;> exact ⟨by decide, by decide, by decide, by decide⟩

/-- Witness for C1 at `w = 32`: the size of the padded `BcmMsgHead`
exceeds the unpadded one by the native word size. -/
theorem c1_arch_conditional_padding_witness :
    bcmMsgHeadSize 32 true - bcmMsgHeadSize 32 false
      = if (32 : Nat) = 32 then 32 / 8 else 0 :=
  (c1_arch_conditional_padding 32 (Or.inl rfl)).1

/-- Claim C2: for every identifier, `filter_delete` returns `Ok` iff
the `write` call reports exactly
`size_of::<BcmMsgHead>() - size_of::<[CanFrame; MAX_NFRAMES]>()` bytes
(40 on 32-bit targets, 56 on 64-bit targets); any other reported count
yields the `WriteZero` error whose message names the observed and the
expected byte counts.  The identifier does not influence the check, so
the result is stated for every `write_rv` in `ssize_t` range. -/
theorem c2_filter_delete_validates_count (w : Nat) (write_rv : Int)
    (hw : w = 32 ∨ w = 64)
    (hlo : -(2 ^ (w - 1)) ≤ write_rv) (hhi : write_rv < 2 ^ (w - 1)) :
    (filter_delete_result w write_rv = .ok ()
      ↔ write_rv = (expectedDeleteSize w : Int)) ∧
    (write_rv ≠ (expectedDeleteSize w : Int) →
      filter_delete_result w write_rv
        = .error (.custom .writeZero
            (mismatchMsg write_rv (expectedDeleteSize w)))) ∧
    expectedDeleteSize w = (if w = 32 then 40 else 56) ∧
    expectedDeleteSize w
      = bcmMsgHeadSize w true - structSize [canFrameArrayField] := by
  rcases hw with rfl | rfl
  · have he : expectedDeleteSize 32 = 40 := by decide
    have key : usizeOfIsize 32 write_rv = 40 ↔ write_rv = 40 := by
      unfold usizeOfIsize
      norm_num at hlo hhi ⊢
      omega
    refine ⟨?_, ?_, by decide, by decide⟩
    · constructor
      · intro hok
        by_contra hne
        have hu : usizeOfIsize 32 write_rv ≠ 40 := fun h =>
          hne (by exact_mod_cast key.mp h)
        simp [filter_delete_result, he, hu] at hok
      · intro hrv
        have hu : usizeOfIsize 32 write_rv = 40 := key.mpr (by exact_mod_cast hrv)
        simp [filter_delete_result, he, hu]
    · intro hne
      have hu : usizeOfIsize 32 write_rv ≠ 40 := fun h =>
        hne (by exact_mod_cast key.mp h)
      simp [filter_delete_result, he, hu]
  · have he : expectedDeleteSize 64 = 56 := by decide
    have key : usizeOfIsize 64 write_rv = 56 ↔ write_rv = 56 := by
      unfold usizeOfIsize
      norm_num at hlo hhi ⊢
      omega
    refine ⟨?_, ?_, by decide, by decide⟩
    · constructor
      · intro hok
        by_contra hne
        have hu : usizeOfIsize 64 write_rv ≠ 56 := fun h =>
          hne (by exact_mod_cast key.mp h)
        simp [filter_delete_result, he, hu] at hok
      · intro hrv
        have hu : usizeOfIsize 64 write_rv = 56 := key.mpr (by exact_mod_cast hrv)
        simp [filter_delete_result, he, hu]
    · intro hne
      have hu : usizeOfIsize 64 write_rv ≠ 56 := fun h =>
        hne (by exact_mod_cast key.mp h)
      simp [filter_delete_result, he, hu]

/-- Witness for C2 at `w = 64`, `write_rv = 56`: the delete succeeds
exactly at the expected byte count. -/
theorem c2_filter_delete_validates_count_witness :
    filter_delete_result 64 56 = .ok () :=
  (c2_filter_delete_validates_count 64 56 (Or.inr rfl)
    (by norm_num) (by norm_num)).1.mpr (by decide)

/-- Claim C3: for every identifier and pair of intervals, `filter_id`
builds a buffer whose header has opcode `RX_SETUP`, flags
`SETTIMER | RX_FILTER_ID`, count 0, the two intervals encoded as
seconds plus microseconds, identifier `can_id | EFF_FLAG`, frame count
0, followed by a zero-filled frame array of the maximum capacity 256. -/
theorem c3_filter_id_builds (can_id : Nat) (i1 i2 : Duration) :
    (filter_id_msg can_id i1 i2)._msg_head._opcode = RX_SETUP ∧
    (filter_id_msg can_id i1 i2)._msg_head._flags
      = (SETTIMER ||| RX_FILTER_ID) ∧
    (filter_id_msg can_id i1 i2)._msg_head._flags = 33 ∧
    (filter_id_msg can_id i1 i2)._msg_head._count = 0 ∧
    (filter_id_msg can_id i1 i2)._msg_head._ival1
      = ⟨i1.secs, i1.nanos / 1000⟩ ∧
    (filter_id_msg can_id i1 i2)._msg_head._ival2
      = ⟨i2.secs, i2.nanos / 1000⟩ ∧
    (filter_id_msg can_id i1 i2)._msg_head._can_id
      = (can_id ||| EFF_FLAG) ∧
    (filter_id_msg can_id i1 i2)._msg_head._nframes = 0 ∧
    (filter_id_msg can_id i1 i2)._frames = List.replicate 256 zeroFrame ∧
    (filter_id_msg can_id i1 i2)._frames.length = MAX_NFRAMES ∧
    ∀ f ∈ (filter_id_msg can_id i1 i2)._frames, f = zeroFrame := by
  refine ⟨rfl, rfl, rfl, rfl, rfl, rfl, rfl, rfl, rfl, ?_, ?_⟩
  · show (List.replicate 256 zeroFrame).length = MAX_NFRAMES
    rw [List.length_replicate, MAX_NFRAMES]
  · intro f hf
    exact List.eq_of_mem_replicate hf

/-- Claim C4 counterexample: a `write` call reporting 0 bytes accepted
— a non-full write, since `size_of::<TxMsg>()` is 4152 (64-bit) resp.
4136 (32-bit), not 0 — is not reported as a failure: `filter_id`
returns `Ok(())`. -/
theorem c4_counterexample :
    filter_id_result 0 0 = Except.ok () ∧
    (0 : Nat) ≠ txMsgSize 64 ∧ (0 : Nat) ≠ txMsgSize 32 ∧
    txMsgSize 64 = 4152 ∧ txMsgSize 32 = 4136 := by
  refine ⟨?_, by decide, by decide, by decide, by decide⟩
  simp [filter_id_result]

/-- Claim C4 as amended: `filter_id` reports a write failure (a
`WriteZero` error wrapping the last OS error) exactly when the `write`
call reports a negative result; any non-negative reported count —
including a short write — succeeds. -/
theorem c4_amended_negative_write_fails (write_rv : Int) (errno : Nat) :
    (filter_id_result write_rv errno = .ok () ↔ 0 ≤ write_rv) ∧
    (write_rv < 0 →
      filter_id_result write_rv errno
        = .error (.custom .writeZero ("os error " ++ toString errno))) := by
  constructor
  · constructor
    · intro hok
      by_contra hneg
      have h : write_rv < 0 := by omega
      simp [filter_id_result, h] at hok
    · intro hge
      have h : ¬write_rv < 0 := by omega
      simp [filter_id_result, h]
  · intro h
    simp [filter_id_result, h]

/-- Witness for C4's amended claim at `write_rv = -1`: the negative
write is reported as a `WriteZero` failure. -/
theorem c4_amended_negative_write_fails_witness :
    filter_id_result (-1) 13
      = .error (.custom .writeZero ("os error " ++ toString 13)) :=
  (c4_amended_negative_write_fails (-1) 13).2 (by norm_num)

/-- Claim C5: each poll returns `NotReady` without a socket read when
the reactor reports the handle not readable; yields exactly one decoded
message when readable and `read_msg` succeeds; re-arms readability
interest and returns `NotReady` on a `WouldBlock` failure; surfaces any
other failure as the stream's terminal error.  In particular the
scripted reactor "not-readable, readable-with-would-block,
readable-with-one-message" yields `NotReady, NotReady, Ready(msg)`
over three polls. -/
theorem c5_stream_poll :
    (∀ rr, bcmPoll false rr = ⟨.notReady, false, false⟩) ∧
    (∀ m, bcmPoll true (.ok m) = ⟨.ready m, true, false⟩) ∧
    (∀ e, e.kind = .wouldBlock →
      bcmPoll true (.error e) = ⟨.notReady, true, true⟩) ∧
    (∀ e, e.kind ≠ .wouldBlock →
      bcmPoll true (.error e) = ⟨.errorOut e, true, false⟩) ∧
    (∀ m rr0,
      runPolls [(false, rr0), (true, .error (.fromRawOsError 11)),
                (true, .ok m)]
        = [.notReady, .notReady, .ready m]) := by
  refine ⟨fun rr => rfl, fun m => rfl, ?_, ?_, ?_⟩
  · intro e he
    simp [bcmPoll, he]
  · intro e he
    simp [bcmPoll, he]
  · intro m rr0
    simp [runPolls, bcmPoll, IoError.kind]

/-- Witness for C5: a `WouldBlock` read error (errno 11) re-arms and
returns `NotReady`, while errno 5 is surfaced as a terminal error. -/
theorem c5_stream_poll_witness :
    bcmPoll true (.error (.fromRawOsError 11)) = ⟨.notReady, true, true⟩ ∧
    bcmPoll true (.error (.fromRawOsError 5))
      = ⟨.errorOut (.fromRawOsError 5), true, false⟩ :=
  ⟨c5_stream_poll.2.2.1 (.fromRawOsError 11) (by decide),
   c5_stream_poll.2.2.2.1 (.fromRawOsError 5) (by decide)⟩

/-- Claim C6: `read_msg` builds a zeroed receive buffer, issues one
read call for the full `BcmMsgHead` size (4136 bytes on 32-bit targets,
4152 on 64-bit targets), returns `Ok` with the decoded message — all
header fields trusted — for every non-negative reported count, and the
last system error unmodified for every negative count. -/
theorem c6_read_msg_trusts_header (w : Nat) (env : ReadEnv)
    (hw : w = 32 ∨ w = 64) :
    (read_msg w env).requested = (if w = 32 then 4136 else 4152) ∧
    (read_msg w env).requested = bcmMsgHeadSize w true ∧
    (read_msg w env).initialBuf = zeroedBcmMsgHead ∧
    (0 ≤ env.retval → (read_msg w env).result = .ok env.filled) ∧
    (env.retval < 0 →
      (read_msg w env).result = .error (.fromRawOsError env.errno)) := by
  refine ⟨?_, rfl, rfl, ?_, ?_⟩
  · rcases hw with rfl | rfl
    · show bcmMsgHeadSize 32 true = if (32 : Nat) = 32 then 4136 else 4152
      decide
    · show bcmMsgHeadSize 64 true = if (64 : Nat) = 32 then 4136 else 4152
      decide
  · intro h
    have h2 : ¬env.retval < 0 := by omega
    simp [read_msg, h2]
  · intro h
    simp [read_msg, h]

/-- Witness for C6 at `w = 64` with a read reporting 0 bytes and a
buffer the kernel left untouched: the zeroed message is returned. -/
theorem c6_read_msg_trusts_header_witness :
    (read_msg 64 ⟨0, zeroedBcmMsgHead, 0⟩).result
      = .ok zeroedBcmMsgHead :=
  (c6_read_msg_trusts_header 64 ⟨0, zeroedBcmMsgHead, 0⟩
    (Or.inr rfl)).2.2.2.1 (by norm_num)

/-- Claim C7: `open_if_nb` performs, in order, socket creation with the
BCM family/protocol pair, non-blocking configuration via
`fcntl(F_SETFL, O_NONBLOCK)`, and `connect` with an address carrying the
given interface index and both identifier fields zero; it returns an
open error carrying the last system error exactly when one of the three
steps fails (socket or fcntl returning -1, connect returning nonzero),
and otherwise a handle owning the created descriptor. -/
theorem c7_open_if_nb_steps (if_index : Nat) (env : OpenEnv) :
    ((open_if_nb if_index env).result = .ok ⟨env.socket_rv⟩
      ↔ env.socket_rv ≠ -1 ∧ env.fcntl_rv ≠ -1 ∧ env.connect_rv = 0) ∧
    ((∃ errno, (open_if_nb if_index env).result = .error (.ioError errno))
      ↔ env.socket_rv = -1 ∨ env.fcntl_rv = -1 ∨ env.connect_rv ≠ 0) ∧
    (env.socket_rv = -1 →
      open_if_nb if_index env
        = ⟨[.socketCall PF_CAN SOCK_DGRAM CAN_BCM],
           .error (.ioError env.errnoSocket)⟩) ∧
    (env.socket_rv ≠ -1 → env.fcntl_rv = -1 →
      open_if_nb if_index env
        = ⟨[.socketCall PF_CAN SOCK_DGRAM CAN_BCM,
            .fcntlCall F_SETFL O_NONBLOCK],
           .error (.ioError env.errnoFcntl)⟩) ∧
    (env.socket_rv ≠ -1 → env.fcntl_rv ≠ -1 → env.connect_rv ≠ 0 →
      open_if_nb if_index env
        = ⟨[.socketCall PF_CAN SOCK_DGRAM CAN_BCM,
            .fcntlCall F_SETFL O_NONBLOCK,
            .connectCall ⟨AF_CAN, (if_index : Int), 0, 0⟩],
           .error (.ioError env.errnoConnect)⟩) ∧
    (env.socket_rv ≠ -1 → env.fcntl_rv ≠ -1 → env.connect_rv = 0 →
      open_if_nb if_index env
        = ⟨[.socketCall PF_CAN SOCK_DGRAM CAN_BCM,
            .fcntlCall F_SETFL O_NONBLOCK,
            .connectCall ⟨AF_CAN, (if_index : Int), 0, 0⟩],
           .ok ⟨env.socket_rv⟩⟩) := by
  by_cases h1 : env.socket_rv = -1 <;>
    by_cases h2 : env.fcntl_rv = -1 <;>
      by_cases h3 : env.connect_rv = 0 <;>
        simp [open_if_nb, h1, h2, h3]

/-- Witness for C7: with all three calls succeeding (socket returns
descriptor 3, fcntl 0, connect 0), opening interface 5 yields the
handle owning descriptor 3 after the full call sequence. -/
theorem c7_open_if_nb_steps_witness :
    open_if_nb 5 ⟨3, 0, 0, 0, 0, 0⟩
      = ⟨[.socketCall PF_CAN SOCK_DGRAM CAN_BCM,
          .fcntlCall F_SETFL O_NONBLOCK,
          .connectCall ⟨AF_CAN, (5 : Int), 0, 0⟩],
         .ok ⟨3⟩⟩ :=
  (c7_open_if_nb_steps 5 ⟨3, 0, 0, 0, 0, 0⟩).2.2.2.2.2
    (by decide) (by decide) (by decide)

/-- Claim C8: for every well-formed message whose frame count `n` is at
most 256, the `frames()` view has exactly `n` records (never the full
fixed-capacity array), and encoding the message to its byte image and
decoding it back yields the message — hence exactly `n` frame records,
each bit-identical to the input; the encoded image has exactly
`size_of::<BcmMsgHead>()` bytes. -/
theorem c8_frames_view_and_roundtrip (w : Nat) (m : BcmMsgHead)
    (hw : w = 32 ∨ w = 64) (hm : m.wf w) (hn : m._nframes ≤ 256) :
    m.frames.length = m._nframes ∧
    (encodeBcmMsgHead w m).length = bcmMsgHeadSize w true ∧
    decodeBcmMsgHead w (encodeBcmMsgHead w m) = some (m, []) ∧
    (∀ m2 rest,
      decodeBcmMsgHead w (encodeBcmMsgHead w m) = some (m2, rest) →
        m2.frames = m.frames ∧ m2.frames.length = m._nframes) := by
  have hrt := decodeBcmMsgHead_encodeBcmMsgHead w m hw hm
  obtain ⟨h1, h2, h3, h4, h5, h6, h7, h8, h9, h10, h11⟩ := hm
  have hlen : m.frames.length = m._nframes := by
    rw [BcmMsgHead.frames, List.length_take, h10]
    omega
  have hfl : (encodeFrames m._frames).length = 4096 := by
    rw [encodeFrames_length _ h11, h10]
  refine ⟨hlen, ?_, hrt, ?_⟩
  · rcases hw with rfl | rfl <;>
      simp [encodeBcmMsgHead, wordLE_length, hfl] <;> decide
  · intro m2 rest h
    rw [hrt] at h
    simp only [Option.some.injEq, Prod.mk.injEq] at h
    obtain ⟨hm2, hrest⟩ := h
    subst hm2
    exact ⟨rfl, hlen⟩

set_option maxRecDepth 8000 in
/-- Witness for C8 at `w = 64` on the all-zero message (frame count 0):
the frames view is empty. -/
theorem c8_frames_view_and_roundtrip_witness :
    zeroedBcmMsgHead.frames.length = zeroedBcmMsgHead._nframes :=
  (c8_frames_view_and_roundtrip 64 zeroedBcmMsgHead (Or.inr rfl)
    (by decide) (by decide)).1

/-- Claim C9: the private `close` inverts its success test — it returns
an error built from the last OS error exactly when `libc::close`
returns a value other than -1 (i.e. when the call succeeds), and
`Ok(())` when it returns -1 (i.e. when the call fails); `Drop` discards
the result either way, so destruction never propagates an error. -/
theorem c9_close_check_inverted (close_rv : Int) (errno : Nat) :
    (CanBCMSocket.close close_rv errno = .ok () ↔ close_rv = -1) ∧
    (close_rv ≠ -1 →
      CanBCMSocket.close close_rv errno
        = .error (.fromRawOsError errno)) ∧
    CanBCMSocket.dropSocket close_rv errno = () := by
  refine ⟨?_, ?_, rfl⟩
  · by_cases h : close_rv = -1 <;> simp [CanBCMSocket.close, h]
  · intro h
    simp [CanBCMSocket.close, h]

/-- Witness for C9 at `close_rv = 0` (a successful `libc::close`):
the method reports an error built from the last OS error. -/
theorem c9_close_check_inverted_witness :
    CanBCMSocket.close 0 9 = .error (.fromRawOsError 9) :=
  (c9_close_check_inverted 0 9).2.1 (by norm_num)

/-- Claim C10: `filter_id` encodes `can_id | EFF_FLAG` while
`filter_delete` encodes the identifier unmodified, so for any
identifier whose extended-identifier bit (bit 31) is clear the two
encoders carry different message identifiers. -/
theorem c10_identifier_asymmetry (can_id : Nat) (i1 i2 : Duration) :
    (filter_id_msg can_id i1 i2)._msg_head._can_id
      = (can_id ||| EFF_FLAG) ∧
    (filter_delete_msg can_id)._can_id = can_id ∧
    (can_id.testBit 31 = false →
      (filter_id_msg can_id i1 i2)._msg_head._can_id
        ≠ (filter_delete_msg can_id)._can_id) := by
  refine ⟨rfl, rfl, ?_⟩
  intro hbit hEq
  have h31 : (can_id ||| EFF_FLAG).testBit 31 = true := by
    rw [Nat.testBit_lor, hbit]
    decide
  rw [show (filter_id_msg can_id i1 i2)._msg_head._can_id
        = (can_id ||| EFF_FLAG) from rfl,
      show (filter_delete_msg can_id)._can_id = can_id from rfl] at hEq
  rw [hEq, hbit] at h31
  exact Bool.false_ne_true h31

/-- Witness for C10 at `can_id = 0x123`: installing uses
`0x123 | EFF_FLAG`, deleting uses `0x123`, and they differ. -/
theorem c10_identifier_asymmetry_witness :
    (filter_id_msg 291 ⟨0, 0⟩ ⟨1, 0⟩)._msg_head._can_id
      ≠ (filter_delete_msg 291)._can_id :=
  (c10_identifier_asymmetry 291 ⟨0, 0⟩ ⟨1, 0⟩).2.2 (by decide)

end SocketCan
